import Mathlib

/-!
Shallow embedding of the `ClaudeCodeService` session/query orchestration
layer (superdesign repository) and proofs about its behaviour.

JavaScript values that the service manipulates (loosely typed SDK messages,
option records, conversation turns) are modelled by the inductive type
`JVal`; a JS object is an association list of string keys to values.
Missing properties read as `JVal.undef`, mirroring JS property access, and
JS truthiness is made explicit by `JVal.truthy`.
-/

/-- Model of a JavaScript value as it appears in the service code. -/
inductive JVal where
  | undef
  | jnull
  | bool (b : Bool)
  | num (n : Int)
  | str (s : String)
  | arr (elems : List JVal)
  | obj (fields : List (String × JVal))

/-- A JavaScript object: ordered key/value pairs with unique keys. -/
abbrev JObj := List (String × JVal)

/-- Look up a key in an association list (first occurrence). -/
def getEntry {α : Type} (m : List (String × α)) (k : String) : Option α :=
  (m.find? (fun p => p.1 == k)).map Prod.snd

/-- Set a key in an association list, replacing the first occurrence or
appending, mirroring JS property assignment `o[k] = v`. -/
def setEntry {α : Type} : List (String × α) → String → α → List (String × α)
  | [], k, v => [(k, v)]
  | (k', v') :: rest, k, v =>
      if k' == k then (k, v) :: rest else (k', v') :: setEntry rest k v

/-- JS property access `m.k`: the stored value, or `undefined` if absent. -/
def objGet (m : JObj) (k : String) : JVal :=
  match getEntry m k with
  | some v => v
  | none => JVal.undef

/-- JS `'k' in m` membership test. -/
def hasKeyB (m : JObj) (k : String) : Bool :=
  (getEntry m k).isSome

/-- JS truthiness of a value. -/
def JVal.truthy : JVal → Bool
  | JVal.undef => false
  | JVal.jnull => false
  | JVal.bool b => b
  | JVal.num n => n != 0
  | JVal.str s => s != ""
  | JVal.arr _ => true
  | JVal.obj _ => true

/-- JS strict equality of a value with a string literal (`v === 's'`). -/
def jvalIsStr (v : JVal) (s : String) : Bool :=
  match v with
  | JVal.str t => t == s
  | _ => false

/-- JS `a || b` on values. -/
def jsOr (a b : JVal) : JVal :=
  if a.truthy then a else b

/-- JS property access on an arbitrary value: objects look the key up,
primitives yield `undefined`. -/
def JVal.getField : JVal → String → JVal
  | JVal.obj fs, k => objGet fs k
  | _, _ => JVal.undef

/-- JS object spread `\x7b...a, ...b\x7d`: keys of `b` override keys of `a`. -/
def mergeObj (a b : JObj) : JObj :=
  b.foldl (fun acc p => setEntry acc p.1 p.2) a

/-! ### Authentication-error classification
Embeds `ClaudeCodeService.isApiKeyAuthError` (src/unnamed/part_000, lines
866-890).  JS `String.prototype.toLowerCase` is modelled on ASCII letters
and `String.prototype.includes` as case-sensitive substring search. -/

/-- ASCII lower-casing of one character, as `toLowerCase` acts on ASCII. -/
def lowerChar (c : Char) : Char :=
  if 'A' ≤ c ∧ c ≤ 'Z' then Char.ofNat (c.toNat + 32) else c

/-- ASCII lower-casing of a string. -/
def lowerStr (s : String) : String :=
  String.mk (s.data.map lowerChar)

/-- Whether the second list starts with the first list. -/
def startsWithL : List Char → List Char → Bool
  | [], _ => true
  | _ :: _, [] => false
  | a :: as, b :: bs => a == b && startsWithL as bs

/-- Case-sensitive substring search on character lists. -/
def containsL (pat : List Char) : List Char → Bool
  | [] => pat.isEmpty
  | b :: bs => startsWithL pat (b :: bs) || containsL pat bs

/-- JS `s.includes(pat)`: case-sensitive substring containment. -/
def strIncl (s pat : String) : Bool :=
  containsL pat.data s.data

/-- The exact pattern list from the source (note the last entry is
upper-case while the message is lower-cased before the search). -/
def authErrorPatterns : List String :=
  ["authentication failed",
   "invalid api key",
   "unauthorized",
   "authentication error",
   "invalid token",
   "access denied",
   "401",
   "ANTHROPIC_API_KEY"]

/-- Embeds `isApiKeyAuthError`: lower-case the message, then test whether
any pattern occurs in it as a substring. -/
def isApiKeyAuthError (errorMessage : String) : Bool :=
  let lowercaseMessage := lowerStr errorMessage
  authErrorPatterns.any (fun pat => strIncl lowercaseMessage pat)

/-! ### JS string conversion
`String(v)` as used by template literals, and `JSON.stringify`, modelled
far enough for the code paths the service exercises. -/

mutual

/-- Elements of an array being joined: `undefined`/`null` render empty. -/
def jsElemToString : JVal → String
  | JVal.undef => ""
  | JVal.jnull => ""
  | JVal.bool b => if b then "true" else "false"
  | JVal.num n => toString n
  | JVal.str s => s
  | JVal.arr xs => jsArrToString xs
  | JVal.obj _ => "[object Object]"

/-- `Array.prototype.join(',')` of stringified elements. -/
def jsArrToString : List JVal → String
  | [] => ""
  | [x] => jsElemToString x
  | x :: y :: rest => jsElemToString x ++ "," ++ jsArrToString (y :: rest)

end

/-- JS `String(v)` / template-literal interpolation of a value. -/
def jsToString : JVal → String
  | JVal.undef => "undefined"
  | JVal.jnull => "null"
  | JVal.bool b => if b then "true" else "false"
  | JVal.num n => toString n
  | JVal.str s => s
  | JVal.arr xs => jsArrToString xs
  | JVal.obj _ => "[object Object]"

mutual

/-- `JSON.stringify` of a value (string escaping elided; the service never
inspects the serialized text). -/
def jsonStringify : JVal → String
  | JVal.undef => "null"
  | JVal.jnull => "null"
  | JVal.bool b => if b then "true" else "false"
  | JVal.num n => toString n
  | JVal.str s => "\"" ++ s ++ "\""
  | JVal.arr xs => "[" ++ jsonStringifyElems xs ++ "]"
  | JVal.obj fs => "\x7b" ++ jsonStringifyFields fs ++ "\x7d"

/-- Serialize array elements, comma separated. -/
def jsonStringifyElems : List JVal → String
  | [] => ""
  | [x] => jsonStringify x
  | x :: y :: rest => jsonStringify x ++ "," ++ jsonStringifyElems (y :: rest)

/-- Serialize object fields, comma separated. -/
def jsonStringifyFields : List (String × JVal) → String
  | [] => ""
  | [(k, v)] => "\"" ++ k ++ "\":" ++ jsonStringify v
  | (k, v) :: p :: rest =>
      "\"" ++ k ++ "\":" ++ jsonStringify v ++ "," ++ jsonStringifyFields (p :: rest)

end

/-! ### Conversation-history flattening
Embeds the prompt-resolution block of `ClaudeCodeService.query`
(src/unnamed/part_000, lines 410-427). -/

/-- Render one part of structured multi-part content:
`part.type === 'text' ? part.text : ` the bracketed type tag. -/
def renderPart (p : JVal) : JVal :=
  if jvalIsStr (p.getField "type") "text" then p.getField "text"
  else JVal.str ("[" ++ jsToString (p.getField "type") ++ "]")

/-- `Array.prototype.join('')`: concatenate stringified elements, with
`undefined`/`null` elements rendering empty. -/
def joinElems : List JVal → String
  | [] => ""
  | x :: rest => jsElemToString x ++ joinElems rest

/-- Render a turn's content: a plain string is used as-is, an array maps
`renderPart` over its parts and joins with `''`, anything else is the
literal placeholder. -/
def renderContent (c : JVal) : String :=
  match c with
  | JVal.str s => s
  | JVal.arr parts => joinElems (parts.map renderPart)
  | _ => "[complex content]"

/-- Render a turn as `role: content` via template-literal interpolation. -/
def renderTurn (m : JObj) : String :=
  jsToString (objGet m "role") ++ ": " ++ renderContent (objGet m "content")

/-- `Array.prototype.join('\n\n')` on a list of strings. -/
def joinBlankLines : List String → String
  | [] => ""
  | [x] => x
  | x :: y :: rest => x ++ "\n\n" ++ joinBlankLines (y :: rest)

/-- Join rendered turns with blank lines. -/
def flattenConversation (msgs : List JObj) : String :=
  joinBlankLines (msgs.map renderTurn)

/-- JS truthiness of an optional string (`null`/`undefined` and `""` are
falsy). -/
def strOptTruthy : Option String → Bool
  | none => false
  | some s => s != ""

/-- Resolve the effective prompt: keep a truthy explicit prompt, otherwise
flatten a non-empty conversation history, and fail (`none`, modelling the
thrown `MissingPrompt` error) if the result is still falsy. -/
def resolveEffectivePrompt (prompt : Option String) (conv : Option (List JObj)) :
    Option String :=
  let ep := if strOptTruthy prompt then prompt
    else match conv with
      | some msgs => if msgs.length > 0 then some (flattenConversation msgs) else prompt
      | none => prompt
  if strOptTruthy ep then ep else none

/-! ### Message translation
Embeds the per-message conversion inside the streaming loop of
`ClaudeCodeService.query` (src/unnamed/part_000, lines 715-785).  The
translator returns `some` normalized message delivered to the sink, or
`none` when the message is skipped (falsy payload or unrecognized tag). -/

/-- Translate one raw SDK message into the normalized message delivered to
the `onMessage` sink, or `none` when nothing is delivered. -/
def translateMsg (m : JObj) : Option JObj :=
  let ty := objGet m "type"
  if jvalIsStr ty "text" && (objGet m "text").truthy then
    some [("role", JVal.str "assistant"), ("content", objGet m "text")]
  else if jvalIsStr ty "tool_use" then
    some [("role", JVal.str "assistant"),
          ("content", JVal.arr [JVal.obj
            [("type", JVal.str "tool-call"),
             ("toolCallId", objGet m "id"),
             ("toolName", objGet m "name"),
             ("args", objGet m "input")]])]
  else if jvalIsStr ty "tool_result" then
    some [("role", JVal.str "tool"),
          ("content", JVal.arr [JVal.obj
            [("type", JVal.str "tool-result"),
             ("toolCallId", objGet m "tool_use_id"),
             ("toolName", JVal.str ""),
             ("result", objGet m "content")]])]
  else if jvalIsStr ty "assistant" && (objGet m "message").truthy then
    let w := objGet m "message"
    let content := match w with
      | JVal.str s => JVal.str s
      | _ => jsOr (w.getField "content") (JVal.str "")
    some [("role", JVal.str "assistant"), ("content", content)]
  else if jvalIsStr ty "result" then
    if (objGet m "content").truthy || (objGet m "result").truthy then
      let c := jsOr (objGet m "content") (objGet m "result")
      some [("role", JVal.str "tool"),
            ("content", JVal.arr [JVal.obj
              [("type", JVal.str "tool-result"),
               ("toolCallId", jsOr (objGet m "parent_tool_use_id") (JVal.str "unknown")),
               ("toolName", JVal.str ""),
               ("result", match c with
                 | JVal.str s => JVal.str s
                 | v => JVal.str (jsonStringify v))]])]
    else none
  else none

/-! ### Session state and session-id adoption
Embeds the session bookkeeping of `ClaudeCodeService`: the
`currentSessionId` field, `clearSession` (src/unnamed/part_000, lines
893-897) and the post-stream adoption scan (lines 789-792). -/

/-- The mutable session state owned by the service. -/
structure ServiceState where
  currentSessionId : Option JVal

/-- Embeds `clearSession`: reset the session id to `null`. -/
def clearSession (_st : ServiceState) : ServiceState :=
  ServiceState.mk none

/-- Embeds the post-stream scan: reverse the accumulated messages, find the
first one whose `session_id` property is present and truthy, and adopt its
value; otherwise keep the old session id. -/
def adoptSessionId (old : Option JVal) (messages : List JObj) : Option JVal :=
  match messages.reverse.find?
      (fun m => hasKeyB m "session_id" && (objGet m "session_id").truthy) with
  | some last =>
      if hasKeyB last "session_id" && (objGet last "session_id").truthy then
        some (objGet last "session_id")
      else old
  | none => old

/-- States of the service reachable from construction through completed
queries and explicit session clears. -/
inductive Reachable : ServiceState → Prop
  | init : Reachable (ServiceState.mk none)
  | step (st : ServiceState) (msgs : List JObj) :
      Reachable st → Reachable (ServiceState.mk (adoptSessionId st.currentSessionId msgs))
  | clear (st : ServiceState) : Reachable st → Reachable (clearSession st)

/-! ### Invocation-option assembly
Embeds the `finalOptions` construction of `ClaudeCodeService.query`
(src/unnamed/part_000, lines 630-665): fixed defaults spread-merged with
caller overrides, then `finalOptions.resume = this.currentSessionId`
assigned when the current session id is truthy. -/

/-- The fixed default options object (tool allow-list, permission mode,
working directory, generated system prompt and max-turn budget). -/
def defaultOptions (cwd customSystemPrompt : String) : JObj :=
  [("maxTurns", JVal.num 999),
   ("allowedTools", JVal.arr
     [JVal.str "Edit", JVal.str "Read", JVal.str "Create", JVal.str "Write",
      JVal.str "Glob", JVal.str "Grep", JVal.str "LS", JVal.str "WebFetch",
      JVal.str "TodoRead", JVal.str "TodoWrite", JVal.str "WebSearch",
      JVal.str "MultiEdit", JVal.str "Search", JVal.str "Update",
      JVal.str "Task", JVal.str "Delete", JVal.str "Bash"]),
   ("permissionMode", JVal.str "acceptEdits"),
   ("cwd", JVal.str cwd),
   ("customSystemPrompt", JVal.str customSystemPrompt)]

/-- Assemble the per-call options: spread defaults then caller overrides
(caller wins on collision), then assign the resume token when the current
session id is truthy. -/
def buildFinalOptions (sessionId : Option JVal) (cwd customSystemPrompt : String)
    (overrides : JObj) : JObj :=
  let fo := mergeObj (defaultOptions cwd customSystemPrompt) overrides
  match sessionId with
  | some sid => if sid.truthy then setEntry fo "resume" sid else fo
  | none => fo

/-! ### The query orchestration
Embeds the control flow of `ClaudeCodeService.query`
(src/unnamed/part_000, lines 406-806): prompt resolution, option assembly,
consumption of the SDK's message stream, session-id adoption only after a
fully successful stream, and error propagation. -/

/-- One event of the SDK's streamed response: a yielded message, or an
error thrown by the stream. -/
inductive StreamEvent where
  | msg (m : JObj)
  | err (e : String)

/-- Drive the `for await` loop: accumulate yielded messages until the
stream ends (`ok` with all messages) or throws (`error`). -/
def consumeStream : List StreamEvent → List JObj → Except String (List JObj)
  | [], acc => Except.ok acc.reverse
  | StreamEvent.msg m :: rest, acc => consumeStream rest (m :: acc)
  | StreamEvent.err e :: _, _ => Except.error e

/-- Errors `query` can surface. -/
inductive QueryError where
  | missingPrompt
  | streamError (e : String)

/-- Outcome of one modelled `query` call: the returned messages or error,
the service state afterwards, and the options passed to the SDK (`none`
when the SDK query entry point was never invoked). -/
structure QueryOutcome where
  result : Except QueryError (List JObj)
  state : ServiceState
  optionsSent : Option JObj

/-- Model of one `query(prompt, conversationMessages, options, ..)` call.
`events` is the stream the external SDK would produce for this call. -/
def queryModel (st : ServiceState) (prompt : Option String)
    (conv : Option (List JObj)) (overrides : JObj)
    (cwd customSystemPrompt : String) (events : List StreamEvent) : QueryOutcome :=
  match resolveEffectivePrompt prompt conv with
  | none => QueryOutcome.mk (Except.error QueryError.missingPrompt) st none
  | some _ =>
      let fo := buildFinalOptions st.currentSessionId cwd customSystemPrompt overrides
      match consumeStream events [] with
      | Except.error e =>
          QueryOutcome.mk (Except.error (QueryError.streamError e)) st (some fo)
      | Except.ok msgs =>
          QueryOutcome.mk (Except.ok msgs)
            (ServiceState.mk (adoptSessionId st.currentSessionId msgs)) (some fo)

/-! ### Workspace setup
Embeds `ClaudeCodeService.setupWorkingDirectory` (src/unnamed/part_000,
lines 338-389) and `createClaudeMdFile` (lines 123-136, 326-335) over an
abstract file-system state.  Directory creation is a no-op on the file
map; a thrown file-system error in the try block is modelled by the
`fsFailure` oracle, which the catch clause turns into the current-working-
directory fallback. -/

/-- Abstract file system: path to file content. -/
abbrev FsState := List (String × String)

/-- Read a file's content, if present. -/
def readFileS (fs : FsState) (p : String) : Option String :=
  getEntry fs p

/-- Write a file's content. -/
def writeFileS (fs : FsState) (p : String) (c : String) : FsState :=
  setEntry fs p c

/-- `fs.existsSync` on a file path. -/
def fileExistsS (fs : FsState) (p : String) : Bool :=
  (readFileS fs p).isSome

/-- `path.join` of two segments. -/
def pathJoin (a b : String) : String :=
  a ++ "/" ++ b

/-- The static CLAUDE.md payload, abridged: the spec treats the content as
an opaque configuration blob; only its dependence on the directory and its
write-once lifecycle matter here. -/
def claudeMdContent (directory : String) : String :=
  "# SUPERDESIGN UI DESIGN SYSTEM\n\n# Role\nYou are a senior front-end designer.\n\n# Current Context\n- Working directory: "
    ++ directory ++ "\n"

/-- Embeds `createClaudeMdFile`: write the payload only when the file does
not already exist; never overwrite an existing file. -/
def createClaudeMdFile (fs : FsState) (directory : String) : FsState :=
  if fileExistsS fs (pathJoin directory "CLAUDE.md") then fs
  else writeFileS fs (pathJoin directory "CLAUDE.md") (claudeMdContent directory)

/-- The host environment a setup call observes. -/
structure HostEnv where
  workspaceRoot : Option String
  tmpdir : String
  cwd : String
  fsFailure : Bool

/-- Embeds `setupWorkingDirectory`: project-root subfolder when a
workspace is open, else an OS-temp subfolder, and on any thrown
file-system error the catch clause falls back to the process's current
working directory without touching the file system. -/
def setupWorkingDirectory (env : HostEnv) (fs : FsState) : String × FsState :=
  if env.fsFailure then (env.cwd, fs)
  else
    match env.workspaceRoot with
    | some root =>
        (pathJoin root ".superdesign", createClaudeMdFile fs (pathJoin root ".superdesign"))
    | none =>
        (pathJoin env.tmpdir "superdesign-claude",
         createClaudeMdFile fs (pathJoin env.tmpdir "superdesign-claude"))

/-! ### Helper lemmas about the embedded primitives -/

/-- Lookup in the empty object. -/
theorem getEntry_nil {α : Type} (k : String) : getEntry ([] : List (String × α)) k = none := rfl

/-- Lookup steps through a cons cell. -/
theorem getEntry_cons {α : Type} (k' : String) (v' : α) (rest : List (String × α)) (k : String) :
    getEntry ((k', v') :: rest) k = if k' == k then some v' else getEntry rest k := by
  by_cases h : (k' == k) = true <;> simp [getEntry, List.find?_cons, h]

/-- Assignment makes the assigned key readable. -/
theorem getEntry_setEntry_self {α : Type} (m : List (String × α)) (k : String) (v : α) :
    getEntry (setEntry m k v) k = some v := by
  induction m with
  | nil => simp [setEntry, getEntry_cons]
  | cons p rest ih =>
      obtain ⟨k', v'⟩ := p
      by_cases h : (k' == k) = true
      · simp [setEntry, h, getEntry_cons]
      · simp [setEntry, h, getEntry_cons, ih]

/-- Assignment leaves other keys untouched. -/
theorem getEntry_setEntry_ne {α : Type} (m : List (String × α)) (k k' : String) (v : α)
    (h : k ≠ k') : getEntry (setEntry m k v) k' = getEntry m k' := by
  induction m with
  | nil => simp [setEntry, getEntry_cons, getEntry_nil, beq_iff_eq, h]
  | cons p rest ih =>
      obtain ⟨k'', v''⟩ := p
      by_cases hk : (k'' == k) = true
      · have : k'' = k := beq_iff_eq.mp hk
        subst this
        simp [setEntry, hk, getEntry_cons, beq_iff_eq, h]
      · simp [setEntry, hk, getEntry_cons, ih]

/-- A key outside the key list is absent. -/
theorem getEntry_eq_none_of_not_mem {α : Type} (m : List (String × α)) (k : String)
    (h : k ∉ m.map Prod.fst) : getEntry m k = none := by
  induction m with
  | nil => rfl
  | cons p rest ih =>
      rw [List.map_cons, List.mem_cons] at h
      push_neg at h
      have hne : (p.1 == k) = false := beq_eq_false_iff_ne.mpr (fun hc => h.1 hc.symm)
      rw [getEntry_cons, if_neg (by simp [hne]), ih h.2]

/-- Spreading an empty object changes nothing. -/
theorem mergeObj_nil (a : JObj) : mergeObj a [] = a := rfl

/-- Spreading steps through a cons cell. -/
theorem mergeObj_cons (a : JObj) (p : String × JVal) (rest : JObj) :
    mergeObj a (p :: rest) = mergeObj (setEntry a p.1 p.2) rest := rfl

/-- A key absent from the overriding object reads from the base. -/
theorem getEntry_mergeObj_of_none (b : JObj) : ∀ (a : JObj) (k : String),
    getEntry b k = none → getEntry (mergeObj a b) k = getEntry a k := by
  induction b with
  | nil => intro a k _; rfl
  | cons p rest ih =>
      intro a k h
      rw [getEntry_cons] at h
      by_cases hpk : (p.1 == k) = true
      · simp [hpk] at h
      · rw [if_neg (by simp [hpk])] at h
        rw [mergeObj_cons, ih _ k h]
        exact getEntry_setEntry_ne _ _ _ _ (fun hc => by simp [hc] at hpk)

/-- A key present in the overriding object (with unique keys) wins. -/
theorem getEntry_mergeObj_of_some (b : JObj) : ∀ (a : JObj) (k : String) (v : JVal),
    (b.map Prod.fst).Nodup → getEntry b k = some v →
    getEntry (mergeObj a b) k = some v := by
  induction b with
  | nil => intro a k v _ h; cases h
  | cons p rest ih =>
      intro a k v hnd h
      rw [List.map_cons, List.nodup_cons] at hnd
      obtain ⟨hnotin, hndrest⟩ := hnd
      rw [getEntry_cons] at h
      by_cases hpk : (p.1 == k) = true
      · have hk : p.1 = k := beq_iff_eq.mp hpk
        rw [if_pos hpk] at h
        have hrest : getEntry rest k = none :=
          getEntry_eq_none_of_not_mem _ _ (hk ▸ hnotin)
        rw [mergeObj_cons, getEntry_mergeObj_of_none rest _ k hrest, hk,
          getEntry_setEntry_self, h]
      · rw [if_neg (by simp [hpk])] at h
        rw [mergeObj_cons]
        exact ih _ k v hndrest h

/-- A pure message stream is consumed to completion. -/
theorem consumeStream_map_msg (l : List JObj) : ∀ acc : List JObj,
    consumeStream (l.map StreamEvent.msg) acc = Except.ok (acc.reverse ++ l) := by
  induction l with
  | nil => intro acc; simp [consumeStream]
  | cons m rest ih =>
      intro acc
      simp [consumeStream, ih (m :: acc)]

/-- A stream that throws after a prefix of messages aborts with that error. -/
theorem consumeStream_err (pre : List JObj) (e : String) (post : List StreamEvent) :
    ∀ acc : List JObj,
    consumeStream (pre.map StreamEvent.msg ++ StreamEvent.err e :: post) acc
      = Except.error e := by
  induction pre with
  | nil => intro acc; rfl
  | cons m rest ih => intro acc; simpa [consumeStream] using ih (m :: acc)

/-- A property that reads as a string is present. -/
theorem hasKeyB_of_objGet_str (m : JObj) (k s : String) (h : objGet m k = JVal.str s) :
    hasKeyB m k = true := by
  unfold objGet at h
  unfold hasKeyB
  cases hg : getEntry m k with
  | none => rw [hg] at h; exact nomatch h
  | some v => simp

/-- Adoption only ever installs a truthy session id. -/
theorem adoptSessionId_truthy (old : Option JVal) (msgs : List JObj)
    (hold : ∀ v, old = some v → v.truthy = true) :
    ∀ v, adoptSessionId old msgs = some v → v.truthy = true := by
  intro v h
  unfold adoptSessionId at h
  cases hf : msgs.reverse.find?
      (fun m => hasKeyB m "session_id" && (objGet m "session_id").truthy) with
  | none => rw [hf] at h; exact hold v h
  | some last =>
      rw [hf] at h
      have hp := List.find?_some hf
      simp only [hp, if_true] at h
      cases h
      exact ((Bool.and_eq_true _ _).mp hp).2

/-- Every reachable state carries no falsy session id. -/
theorem reachable_session_truthy (st : ServiceState) (h : Reachable st) :
    ∀ v, st.currentSessionId = some v → v.truthy = true := by
  induction h with
  | init => intro v hv; exact nomatch hv
  | step st0 msgs _ ih => intro v hv; exact adoptSessionId_truthy _ _ ih v hv
  | clear st0 _ _ => intro v hv; exact nomatch hv

/-- Adoption picks the last truthy session id in the accumulated messages. -/
theorem adoptSessionId_last (old : Option JVal) (pre suf : List JObj) (m : JObj) (s : String)
    (hm : objGet m "session_id" = JVal.str s) (hs : s ≠ "")
    (hsuf : ∀ x ∈ suf, (objGet x "session_id").truthy = false) :
    adoptSessionId old (pre ++ m :: suf) = some (JVal.str s) := by
  have hkey : hasKeyB m "session_id" = true := hasKeyB_of_objGet_str _ _ _ hm
  have hpredm : (hasKeyB m "session_id" && (objGet m "session_id").truthy) = true := by
    simp [hkey, hm, JVal.truthy, hs]
  have hsufnone : suf.reverse.find?
      (fun x => hasKeyB x "session_id" && (objGet x "session_id").truthy) = none := by
    rw [List.find?_eq_none]
    intro a ha
    rw [List.mem_reverse] at ha
    simp [hsuf a ha]
  have hkeytrue : hasKeyB m "session_id" = true := hkey
  unfold adoptSessionId
  rw [List.reverse_append, List.reverse_cons, List.append_assoc, List.find?_append,
    hsufnone]
  simp [List.find?_cons, hkeytrue, hm, JVal.truthy, hs]

/-- Adoption is a no-op when no message carries a truthy session id. -/
theorem adoptSessionId_noop (old : Option JVal) (msgs : List JObj)
    (h : ∀ x ∈ msgs, (objGet x "session_id").truthy = false) :
    adoptSessionId old msgs = old := by
  unfold adoptSessionId
  have hnone : msgs.reverse.find?
      (fun x => hasKeyB x "session_id" && (objGet x "session_id").truthy) = none := by
    rw [List.find?_eq_none]
    intro a ha
    rw [List.mem_reverse] at ha
    simp [h a ha]
  rw [hnone]

theorem buildFinalOptions_none (cwd sp : String) (o : JObj) :
    buildFinalOptions none cwd sp o = mergeObj (defaultOptions cwd sp) o := rfl

theorem buildFinalOptions_some (w : JVal) (cwd sp : String) (o : JObj) :
    buildFinalOptions (some w) cwd sp o =
      (if w.truthy then setEntry (mergeObj (defaultOptions cwd sp) o) "resume" w
       else mergeObj (defaultOptions cwd sp) o) := rfl

theorem getEntry_defaultOptions_resume (cwd sp : String) :
    getEntry (defaultOptions cwd sp) "resume" = none := rfl

theorem renderTurn_ne_empty (m : JObj) : renderTurn m ≠ "" := by
  unfold renderTurn
  intro h
  have hlen := congrArg String.length h
  simp [String.length_append] at hlen
  exact absurd hlen.1.2 (by decide)

theorem flattenConversation_ne_empty (msgs : List JObj) (h : msgs ≠ []) :
    flattenConversation msgs ≠ "" := by
  match msgs with
  | [] => exact absurd rfl h
  | [m] =>
      simpa [flattenConversation, joinBlankLines] using renderTurn_ne_empty m
  | m :: n :: rest =>
      unfold flattenConversation
      simp only [List.map_cons]
      show renderTurn m ++ "\n\n" ++ joinBlankLines (renderTurn n :: rest.map renderTurn) ≠ ""
      intro hc
      have hlen := congrArg String.length hc
      simp [String.length_append] at hlen
      exact absurd hlen.1.2 (by decide)

theorem createClaudeMd_preserves (fs : FsState) (d p : String) (c : String)
    (h : readFileS fs p = some c) : readFileS (createClaudeMdFile fs d) p = some c := by
  unfold createClaudeMdFile
  by_cases he : fileExistsS fs (pathJoin d "CLAUDE.md") = true
  · rw [if_pos he]; exact h
  · rw [if_neg he]
    have hnone : readFileS fs (pathJoin d "CLAUDE.md") = none := by
      unfold fileExistsS at he
      cases hg : readFileS fs (pathJoin d "CLAUDE.md") with
      | none => rfl
      | some v => rw [hg] at he; simp at he
    have hne : pathJoin d "CLAUDE.md" ≠ p := by
      intro hc
      rw [hc, h] at hnone
      cases hnone
    unfold readFileS writeFileS at *
    rw [getEntry_setEntry_ne _ _ _ _ hne]
    exact h

theorem createClaudeMd_creates (fs : FsState) (d : String)
    (h : readFileS fs (pathJoin d "CLAUDE.md") = none) :
    readFileS (createClaudeMdFile fs d) (pathJoin d "CLAUDE.md")
      = some (claudeMdContent d) := by
  unfold createClaudeMdFile
  rw [if_neg (by simp [fileExistsS, h])]
  exact getEntry_setEntry_self _ _ _

theorem createClaudeMd_idem (fs : FsState) (d : String) :
    createClaudeMdFile (createClaudeMdFile fs d) d = createClaudeMdFile fs d := by
  by_cases he : fileExistsS fs (pathJoin d "CLAUDE.md") = true
  · unfold createClaudeMdFile
    rw [if_pos he, if_pos he]
  · have h2 : fileExistsS (createClaudeMdFile fs d) (pathJoin d "CLAUDE.md") = true := by
      unfold createClaudeMdFile
      rw [if_neg he]
      simp [fileExistsS, readFileS, writeFileS, getEntry_setEntry_self]
    conv_lhs => rw [createClaudeMdFile]
    rw [if_pos h2]

theorem setupWD_fail (env : HostEnv) (fs : FsState) (h : env.fsFailure = true) :
    setupWorkingDirectory env fs = (env.cwd, fs) := by
  unfold setupWorkingDirectory; rw [if_pos h]

theorem setupWD_root (env : HostEnv) (fs : FsState) (root : String)
    (hf : env.fsFailure = false) (hr : env.workspaceRoot = some root) :
    setupWorkingDirectory env fs
      = (pathJoin root ".superdesign", createClaudeMdFile fs (pathJoin root ".superdesign")) := by
  unfold setupWorkingDirectory
  rw [if_neg (by simp [hf]), hr]

theorem setupWD_tmp (env : HostEnv) (fs : FsState)
    (hf : env.fsFailure = false) (hr : env.workspaceRoot = none) :
    setupWorkingDirectory env fs
      = (pathJoin env.tmpdir "superdesign-claude",
         createClaudeMdFile fs (pathJoin env.tmpdir "superdesign-claude")) := by
  unfold setupWorkingDirectory
  rw [if_neg (by simp [hf]), hr]

/-! ### Claim theorems -/

/-- C1: After `query()` consumes a message stream to completion in which
some message carries the non-empty session id "S1" and every later message
carries no session id, the service's current session id equals "S1": the
accumulated messages are scanned in reverse order and the first (i.e.
last-emitted) non-empty session identifier found is adopted, with no
change if no message carries one. -/
theorem query_adopts_last_session_id
    (st : ServiceState) (prompt : Option String) (conv : Option (List JObj))
    (overrides : JObj) (cwd sp q : String)
    (hp : resolveEffectivePrompt prompt conv = some q)
    (pre suf : List JObj) (m : JObj)
    (hm : objGet m "session_id" = JVal.str "S1")
    (hsuf : ∀ x ∈ suf, (objGet x "session_id").truthy = false) :
    (queryModel st prompt conv overrides cwd sp
        ((pre ++ m :: suf).map StreamEvent.msg)).state.currentSessionId
      = some (JVal.str "S1")
    ∧ ∀ msgs : List JObj, (∀ x ∈ msgs, (objGet x "session_id").truthy = false) →
        (queryModel st prompt conv overrides cwd sp
            (msgs.map StreamEvent.msg)).state.currentSessionId
          = st.currentSessionId := by
  constructor
  · simp only [queryModel, hp, consumeStream_map_msg, List.reverse_nil, List.nil_append]
    exact adoptSessionId_last st.currentSessionId pre suf m "S1" hm (by decide) hsuf
  · intro msgs hmsgs
    simp only [queryModel, hp, consumeStream_map_msg, List.reverse_nil, List.nil_append]
    exact adoptSessionId_noop _ _ hmsgs

/-- Witness for C1 at a concrete two-message stream. -/
theorem query_adopts_last_session_id_witness :
    (queryModel (ServiceState.mk none) (some "p") none [] "/w" "sys"
        (([[("session_id", JVal.str "S1")], []] : List JObj).map StreamEvent.msg)
      ).state.currentSessionId = some (JVal.str "S1") :=
  (query_adopts_last_session_id (ServiceState.mk none) (some "p") none [] "/w" "sys" "p"
    rfl [] [[]] [("session_id", JVal.str "S1")] rfl
    (by intro x hx; simp at hx; subst hx; rfl)).1

/-- C2: the assembled options carry a resume token equal to the current
session id exactly when a session id is known, and after `clearSession()`
the next query's options carry no resume token (for calls whose overrides
do not themselves supply a resume key). -/
theorem resume_token_iff_session_known
    (st : ServiceState) (hreach : Reachable st) (overrides : JObj)
    (hnores : getEntry overrides "resume" = none) (cwd sp : String) :
    (∀ v, st.currentSessionId = some v →
        getEntry (buildFinalOptions st.currentSessionId cwd sp overrides) "resume"
          = some v)
    ∧ (st.currentSessionId = none →
        getEntry (buildFinalOptions st.currentSessionId cwd sp overrides) "resume"
          = none)
    ∧ (∀ st0 : ServiceState,
        getEntry (buildFinalOptions (clearSession st0).currentSessionId cwd sp overrides)
          "resume" = none) := by
  have hbase : getEntry (mergeObj (defaultOptions cwd sp) overrides) "resume" = none := by
    rw [getEntry_mergeObj_of_none _ _ _ hnores]
    rfl
  refine ⟨?_, ?_, ?_⟩
  · intro v hv
    have htr : v.truthy = true := reachable_session_truthy st hreach v hv
    rw [hv, buildFinalOptions_some, if_pos htr]
    exact getEntry_setEntry_self _ _ _
  · intro hv
    rw [hv, buildFinalOptions_none]
    exact hbase
  · intro st0
    exact hbase

/-- Witness for C2: a fresh state gets no resume token; a state that
adopted "S1" gets resume token "S1". -/
theorem resume_token_iff_session_known_witness :
    getEntry (buildFinalOptions
        (ServiceState.mk (adoptSessionId none [[("session_id", JVal.str "S1")]])).currentSessionId
        "/w" "sys" []) "resume" = some (JVal.str "S1")
    ∧ getEntry (buildFinalOptions (ServiceState.mk none).currentSessionId "/w" "sys" [])
        "resume" = none :=
  ⟨(resume_token_iff_session_known
      (ServiceState.mk (adoptSessionId none [[("session_id", JVal.str "S1")]]))
      (Reachable.step (ServiceState.mk none) [[("session_id", JVal.str "S1")]] Reachable.init)
      [] rfl "/w" "sys").1 (JVal.str "S1") rfl,
   (resume_token_iff_session_known (ServiceState.mk none) Reachable.init
      [] rfl "/w" "sys").2.1 rfl⟩

/-- C3 counterexample: with session id "S1" known, a caller-supplied
resume override "X" does not survive option assembly: the assembled
options map "resume" to "S1", not to the caller's value. -/
theorem caller_resume_override_clobbered :
    getEntry (buildFinalOptions (some (JVal.str "S1")) "/w" "sys"
        [("resume", JVal.str "X")]) "resume" = some (JVal.str "S1")
    ∧ ¬ (getEntry (buildFinalOptions (some (JVal.str "S1")) "/w" "sys"
        [("resume", JVal.str "X")]) "resume" = some (JVal.str "X")) := by
  have h : getEntry (buildFinalOptions (some (JVal.str "S1")) "/w" "sys"
      [("resume", JVal.str "X")]) "resume" = some (JVal.str "S1") := rfl
  refine ⟨h, ?_⟩
  rw [h]
  intro hc
  injection hc with hc2
  injection hc2 with hc3
  exact absurd hc3 (by decide)

/-- C3 amended: caller overrides win over the fixed defaults on every key
except the session-resume key: a caller value at any key other than
"resume" always survives; a caller "resume" survives only when no truthy
session id is known; a known truthy session id overwrites "resume" after
the merge. -/
theorem option_merge_caller_wins_except_resume
    (overrides : JObj) (hnd : (overrides.map Prod.fst).Nodup)
    (sid : Option JVal) (cwd sp : String) :
    (∀ k v, getEntry overrides k = some v → k ≠ "resume" →
        getEntry (buildFinalOptions sid cwd sp overrides) k = some v)
    ∧ ((sid = none ∨ ∃ w, sid = some w ∧ w.truthy = false) →
        ∀ k v, getEntry overrides k = some v →
          getEntry (buildFinalOptions sid cwd sp overrides) k = some v)
    ∧ (∀ w, sid = some w → w.truthy = true →
        getEntry (buildFinalOptions sid cwd sp overrides) "resume" = some w) := by
  have hmerge : ∀ k v, getEntry overrides k = some v →
      getEntry (mergeObj (defaultOptions cwd sp) overrides) k = some v :=
    fun k v h => getEntry_mergeObj_of_some overrides _ k v hnd h
  refine ⟨?_, ?_, ?_⟩
  · intro k v hk hne
    cases sid with
    | none => rw [buildFinalOptions_none]; exact hmerge k v hk
    | some w =>
        rw [buildFinalOptions_some]
        by_cases ht : w.truthy = true
        · rw [if_pos ht, getEntry_setEntry_ne _ _ _ _ (fun hc => hne hc.symm)]
          exact hmerge k v hk
        · rw [if_neg ht]
          exact hmerge k v hk
  · rintro (rfl | ⟨w, rfl, hw⟩) k v hk
    · rw [buildFinalOptions_none]; exact hmerge k v hk
    · rw [buildFinalOptions_some, if_neg (by simp [hw])]
      exact hmerge k v hk
  · rintro w rfl ht
    rw [buildFinalOptions_some, if_pos ht]
    exact getEntry_setEntry_self _ _ _

/-- Witness for the amended C3: a caller override of the default maxTurns
key wins even while a session id is known. -/
theorem option_merge_caller_wins_except_resume_witness :
    getEntry (buildFinalOptions (some (JVal.str "S1")) "/w" "sys"
        [("maxTurns", JVal.num 5)]) "maxTurns" = some (JVal.num 5) :=
  (option_merge_caller_wins_except_resume [("maxTurns", JVal.num 5)]
    (by simp) (some (JVal.str "S1")) "/w" "sys").1 "maxTurns" (JVal.num 5) rfl
    (by decide)

/-- C4 evaluation: the two documented examples hold, but a message
mentioning the API-key environment variable name is not classified as an
authentication error: the message is lower-cased while the pattern list
keeps the name upper-case, so that pattern can never match. -/
theorem auth_error_classification_eval :
    isApiKeyAuthError "Error: 401 Unauthorized" = true
    ∧ isApiKeyAuthError "disk full" = false
    ∧ isApiKeyAuthError "ANTHROPIC_API_KEY is not set" = false
    ∧ isApiKeyAuthError "anthropic_api_key is not set" = false := by
  refine ⟨by decide, by decide, by decide, by decide⟩

/-- C5 counterexample: a message tagged "text" whose text field is the
empty string is not delivered at all, contradicting delivery for every
text-tagged message. -/
theorem text_message_empty_text_not_delivered :
    translateMsg [("type", JVal.str "text"), ("text", JVal.str "")] = none := rfl

/-- C5 amended: every raw message tagged "text" whose text field is truthy
(present and non-empty) is delivered as an assistant message carrying the
text verbatim; every message with an unrecognized tag is dropped without
raising (the translator is total), including the concrete examples from
the spec. -/
theorem translate_text_verbatim_and_unknown_dropped (m : JObj) :
    (∀ s, objGet m "type" = JVal.str "text" → objGet m "text" = JVal.str s → s ≠ "" →
        translateMsg m = some [("role", JVal.str "assistant"), ("content", JVal.str s)])
    ∧ (∀ t, objGet m "type" = JVal.str t →
        t ∉ ["text", "tool_use", "tool_result", "assistant", "result"] →
        translateMsg m = none)
    ∧ translateMsg [("type", JVal.str "text"), ("text", JVal.str "hello")]
        = some [("role", JVal.str "assistant"), ("content", JVal.str "hello")]
    ∧ translateMsg [("type", JVal.str "bogus")] = none := by
  refine ⟨?_, ?_, rfl, rfl⟩
  · intro s hty htx hs
    unfold translateMsg
    simp [hty, htx, jvalIsStr, JVal.truthy, hs]
  · intro t hty hmem
    simp only [List.mem_cons, List.not_mem_nil, or_false] at hmem
    push_neg at hmem
    obtain ⟨h1, h2, h3, h4, h5⟩ := hmem
    unfold translateMsg
    simp [hty, jvalIsStr, h1, h2, h3, h4, h5]

/-- Witness for the amended C5 at a concrete truthy text message. -/
theorem translate_text_verbatim_and_unknown_dropped_witness :
    translateMsg [("type", JVal.str "text"), ("text", JVal.str "hi")]
      = some [("role", JVal.str "assistant"), ("content", JVal.str "hi")] :=
  (translate_text_verbatim_and_unknown_dropped
    [("type", JVal.str "text"), ("text", JVal.str "hi")]).1 "hi" rfl rfl (by decide)

/-- C6: a query with a falsy prompt and an empty or absent conversation
history fails with the missing-prompt error before the SDK entry point is
reached: no options are sent and the service state is unchanged. -/
theorem missing_prompt_rejected_before_sdk
    (st : ServiceState) (prompt : Option String) (conv : Option (List JObj))
    (overrides : JObj) (cwd sp : String) (events : List StreamEvent)
    (hp : prompt = none ∨ prompt = some "")
    (hc : conv = none ∨ conv = some []) :
    queryModel st prompt conv overrides cwd sp events
      = QueryOutcome.mk (Except.error QueryError.missingPrompt) st none := by
  have hresolve : resolveEffectivePrompt prompt conv = none := by
    rcases hp with rfl | rfl <;> rcases hc with rfl | rfl <;> rfl
  unfold queryModel
  rw [hresolve]

/-- Witness for C6 at an empty prompt and empty history. -/
theorem missing_prompt_rejected_before_sdk_witness :
    queryModel (ServiceState.mk none) (some "") (some []) [] "/w" "sys" []
      = QueryOutcome.mk (Except.error QueryError.missingPrompt)
          (ServiceState.mk none) none :=
  missing_prompt_rejected_before_sdk (ServiceState.mk none) (some "")
    (some []) [] "/w" "sys" [] (Or.inr rfl) (Or.inr rfl)

/-- C7: with no truthy explicit prompt and a non-empty history the
effective prompt is the flattened history; each turn renders as
`role: content`, string content is used as-is, structured content renders
text parts verbatim and other parts as a bracketed type tag, and the
two-turn example flattens as documented. -/
theorem conversation_history_flattening
    (prompt : Option String) (hp : strOptTruthy prompt = false)
    (msgs : List JObj) (hne : msgs ≠ []) :
    resolveEffectivePrompt prompt (some msgs) = some (flattenConversation msgs)
    ∧ flattenConversation
        [[("role", JVal.str "user"), ("content", JVal.str "hi")],
         [("role", JVal.str "assistant"), ("content", JVal.str "hello")]]
        = "user: hi\n\nassistant: hello"
    ∧ (∀ r c : String, renderTurn [("role", JVal.str r), ("content", JVal.str c)]
        = r ++ ": " ++ c)
    ∧ (∀ r t u : String, u ≠ "text" →
        renderTurn [("role", JVal.str r),
          ("content", JVal.arr
            [JVal.obj [("type", JVal.str "text"), ("text", JVal.str t)],
             JVal.obj [("type", JVal.str u)]])]
        = r ++ ": " ++ (t ++ ("[" ++ u ++ "]"))) := by
  refine ⟨?_, rfl, fun r c => rfl, ?_⟩
  · unfold resolveEffectivePrompt
    rw [hp]
    simp only [Bool.false_eq_true, if_false]
    have hlen : msgs.length > 0 := List.length_pos.mpr hne
    simp only [hlen, if_pos]
    have hflat : strOptTruthy (some (flattenConversation msgs)) = true := by
      simp [strOptTruthy, flattenConversation_ne_empty msgs hne]
    simp [hflat]
  · intro r t u hu
    have h1 : objGet [("role", JVal.str r),
        ("content", JVal.arr
          [JVal.obj [("type", JVal.str "text"), ("text", JVal.str t)],
           JVal.obj [("type", JVal.str u)]])] "role" = JVal.str r := rfl
    have hp1 : renderPart (JVal.obj [("type", JVal.str "text"), ("text", JVal.str t)])
        = JVal.str t := rfl
    have hp2 : renderPart (JVal.obj [("type", JVal.str u)])
        = JVal.str ("[" ++ u ++ "]") := by
      unfold renderPart
      rw [if_neg]
      · rfl
      · simp [JVal.getField, objGet, getEntry, jvalIsStr, hu]
    unfold renderTurn
    rw [h1]
    show (r : String) ++ ": " ++ renderContent (JVal.arr
        [JVal.obj [("type", JVal.str "text"), ("text", JVal.str t)],
         JVal.obj [("type", JVal.str u)]]) = _
    unfold renderContent
    simp only [List.map_cons, List.map_nil, hp1, hp2]
    simp [joinElems, jsElemToString, String.append_empty, jsToString]

/-- Witness for C7 at the documented two-turn history. -/
theorem conversation_history_flattening_witness :
    resolveEffectivePrompt none
        (some [[("role", JVal.str "user"), ("content", JVal.str "hi")],
               [("role", JVal.str "assistant"), ("content", JVal.str "hello")]])
      = some "user: hi\n\nassistant: hello" :=
  ((conversation_history_flattening none rfl
      [[("role", JVal.str "user"), ("content", JVal.str "hi")],
       [("role", JVal.str "assistant"), ("content", JVal.str "hello")]]
      (by simp)).1).trans
    (congrArg some (conversation_history_flattening none rfl
      [[("role", JVal.str "user"), ("content", JVal.str "hi")],
       [("role", JVal.str "assistant"), ("content", JVal.str "hello")]]
      (by simp)).2.1)

/-- C8: workspace setup never propagates a failure: it always yields a
working directory (project-root subfolder, else OS-temp subfolder, else
the process's current directory); existing files, the one-time
configuration file included, are never overwritten; the configuration
file is created when absent; and a second setup call leaves the file
system unchanged. -/
theorem setup_workspace_resilient (env : HostEnv) (fs : FsState) :
    ((setupWorkingDirectory env fs).1 = env.cwd
      ∨ (∃ root, env.workspaceRoot = some root
          ∧ (setupWorkingDirectory env fs).1 = pathJoin root ".superdesign")
      ∨ (setupWorkingDirectory env fs).1 = pathJoin env.tmpdir "superdesign-claude")
    ∧ (∀ p c, readFileS fs p = some c →
        readFileS (setupWorkingDirectory env fs).2 p = some c)
    ∧ (env.fsFailure = false →
        readFileS fs (pathJoin (setupWorkingDirectory env fs).1 "CLAUDE.md") = none →
        readFileS (setupWorkingDirectory env fs).2
            (pathJoin (setupWorkingDirectory env fs).1 "CLAUDE.md")
          = some (claudeMdContent (setupWorkingDirectory env fs).1))
    ∧ (setupWorkingDirectory env (setupWorkingDirectory env fs).2).2
        = (setupWorkingDirectory env fs).2 := by
  by_cases hf : env.fsFailure = true
  · simp only [setupWD_fail env _ hf]
    exact ⟨Or.inl trivial, fun p c h => h, fun habs _ => absurd hf (by simp [habs]),
      trivial⟩
  · have hf' : env.fsFailure = false := by simpa using hf
    cases hr : env.workspaceRoot with
    | some root =>
        simp only [setupWD_root env _ root hf' hr]
        exact ⟨Or.inr (Or.inl ⟨root, rfl, rfl⟩),
          fun p c h => createClaudeMd_preserves fs _ p c h,
          fun _ habs => createClaudeMd_creates fs _ habs,
          createClaudeMd_idem fs _⟩
    | none =>
        simp only [setupWD_tmp env _ hf' hr]
        exact ⟨Or.inr (Or.inr trivial),
          fun p c h => createClaudeMd_preserves fs _ p c h,
          fun _ habs => createClaudeMd_creates fs _ habs,
          createClaudeMd_idem fs _⟩

/-- Witness for C8: with no workspace root the directory is the OS-temp
subfolder and the configuration file is created there. -/
theorem setup_workspace_resilient_witness :
    readFileS (setupWorkingDirectory (HostEnv.mk none "/tmp" "/cwd" false) []).2
        (pathJoin (pathJoin "/tmp" "superdesign-claude") "CLAUDE.md")
      = some (claudeMdContent (pathJoin "/tmp" "superdesign-claude")) :=
  (setup_workspace_resilient (HostEnv.mk none "/tmp" "/cwd" false) []).2.2.1 rfl rfl

/-- C9: a stream that raises before completion leaves the current session
id at its pre-call value: adoption happens only after a fully successful
stream, so the call re-raises the error with the state unchanged. -/
theorem midstream_error_preserves_session
    (st : ServiceState) (prompt : Option String) (conv : Option (List JObj))
    (overrides : JObj) (cwd sp q : String)
    (hp : resolveEffectivePrompt prompt conv = some q)
    (pre : List JObj) (e : String) (post : List StreamEvent) :
    (queryModel st prompt conv overrides cwd sp
        (pre.map StreamEvent.msg ++ StreamEvent.err e :: post)).state = st
    ∧ (queryModel st prompt conv overrides cwd sp
        (pre.map StreamEvent.msg ++ StreamEvent.err e :: post)).result
      = Except.error (QueryError.streamError e) := by
  unfold queryModel
  rw [hp, consumeStream_err]
  exact ⟨rfl, rfl⟩

/-- Witness for C9: an erroring stream after one message, even one
carrying a session id, leaves the fresh state unchanged. -/
theorem midstream_error_preserves_session_witness :
    (queryModel (ServiceState.mk none) (some "p") none [] "/w" "sys"
        (([[("session_id", JVal.str "S1")]] : List JObj).map StreamEvent.msg
          ++ StreamEvent.err "boom" :: [])).state = ServiceState.mk none :=
  (midstream_error_preserves_session (ServiceState.mk none) (some "p") none []
    "/w" "sys" "p" rfl [[("session_id", JVal.str "S1")]] "boom" []).1

/-- C10: the recognized-tag branches additionally require a truthy
payload: a "text" message with absent or empty text, an "assistant"
message with a falsy wrapped message, and a "result" message with falsy
content and result fields are all silently skipped. -/
theorem translator_truthiness_guards (m : JObj) :
    (objGet m "type" = JVal.str "text" → (objGet m "text").truthy = false →
        translateMsg m = none)
    ∧ (objGet m "type" = JVal.str "assistant" → (objGet m "message").truthy = false →
        translateMsg m = none)
    ∧ (objGet m "type" = JVal.str "result" → (objGet m "content").truthy = false →
        (objGet m "result").truthy = false → translateMsg m = none)
    ∧ translateMsg [("type", JVal.str "text")] = none
    ∧ translateMsg [("type", JVal.str "text"), ("text", JVal.str "")] = none
    ∧ translateMsg [("type", JVal.str "assistant")] = none
    ∧ translateMsg [("type", JVal.str "result")] = none := by
  refine ⟨?_, ?_, ?_, rfl, rfl, rfl, rfl⟩
  · intro hty htx
    unfold translateMsg
    simp [hty, htx, jvalIsStr]
  · intro hty hmsg
    unfold translateMsg
    simp [hty, hmsg, jvalIsStr]
  · intro hty hc hr
    unfold translateMsg
    simp [hty, hc, hr, jvalIsStr]

/-- Witness for C10 at an assistant message wrapping an empty string. -/
theorem translator_truthiness_guards_witness :
    translateMsg [("type", JVal.str "assistant"), ("message", JVal.str "")] = none :=
  (translator_truthiness_guards
    [("type", JVal.str "assistant"), ("message", JVal.str "")]).2.1 rfl rfl
